import Mathlib

/-!
Verification of the utid segment/composition core (`src/lib.rs`).

The source works over Rust's `i128`.  We model an `i128` value as an
unbounded `Int` together with explicit two's-complement reduction:
`toP` maps a value to its 128-bit pattern (a `Nat` below `2 ^ 128`) and
`ofP` reinterprets a pattern as a signed value.  Every Rust operation
that can wrap (shifts, `|`, `&`, `-`, `*`, `+` on `i128`) is modelled
through the pattern, i.e. with wrapping (release-mode) semantics.
Rust's arithmetic right shift `>>` on `i128` is floor division by a
power of two, and `/` on `i128` truncates toward zero (`Int.tdiv`).
-/

namespace Utid

set_option maxRecDepth 100000

/-- `i128::MAX`. -/
def i128MAX : Int := 2 ^ 127 - 1

/-- The 128-bit two's-complement pattern of an `i128` value (`x as u128`). -/
def toP (x : Int) : Nat := (x % (2 ^ 128 : Int)).toNat

/-- Reinterpret a 128-bit pattern as a signed value (`p as i128`). -/
def ofP (p : Nat) : Int := if p < 2 ^ 127 then (p : Int) else (p : Int) - 2 ^ 128

/-- Rust `x << s` on `i128` (bits shifted out are discarded). -/
def i128shl (x : Int) (s : Nat) : Int := ofP ((toP x <<< s) % 2 ^ 128)

/-- Rust `x >> s` on `i128`: arithmetic shift, i.e. floor division by `2 ^ s`.
`Int`'s `/` is Euclidean division, which is floor division for a positive
divisor. -/
def i128shr (x : Int) (s : Nat) : Int := x / (2 ^ s : Int)

/-- Rust `x | y` on `i128` (bitwise or of the two patterns). -/
def i128lor (x y : Int) : Int := ofP (toP x ||| toP y)

/-- Rust `x & y` on `i128` (bitwise and of the two patterns). -/
def i128land (x y : Int) : Int := ofP (toP x &&& toP y)

/-- Rust `x - y` on `i128` with wrapping semantics. -/
def i128sub (x y : Int) : Int := ofP (((x - y) % (2 ^ 128 : Int)).toNat)

/-- Rust `x + y` on `i128` with wrapping semantics. -/
def i128add (x y : Int) : Int := ofP (((x + y) % (2 ^ 128 : Int)).toNat)

/-- Rust `x * y` on `i128` with wrapping semantics. -/
def i128mul (x y : Int) : Int := ofP (((x * y) % (2 ^ 128 : Int)).toNat)

theorem toP_lt (x : Int) : toP x < 2 ^ 128 := by
  unfold toP
  have h1 : (0:Int) ≤ x % (2 ^ 128 : Int) := Int.emod_nonneg x (by norm_num)
  have h2 : x % (2 ^ 128 : Int) < 2 ^ 128 := Int.emod_lt_of_pos x (by norm_num)
  norm_num at h1 h2 ⊢
  omega

theorem toP_ofP (p : Nat) (h : p < 2 ^ 128) : toP (ofP p) = p := by
  unfold toP ofP
  split
  case isTrue ht =>
    have : ((p : Int)) % (2 ^ 128 : Int) = (p : Int) := by
      apply Int.emod_eq_of_lt (by positivity)
      norm_num at h ⊢
      omega
    rw [this, Int.toNat_natCast]
  case isFalse hf =>
    norm_num at h ⊢
    omega

theorem ofP_of_lt (p : Nat) (h : p < 2 ^ 127) : ofP p = (p : Int) := by
  unfold ofP
  exact if_pos h

theorem ofP_nonneg_of_lt (p : Nat) (h : p < 2 ^ 127) : 0 ≤ ofP p := by
  rw [ofP_of_lt p h]
  positivity

theorem toP_of_nonneg (x : Int) (h0 : 0 ≤ x) (h1 : x < 2 ^ 128) : toP x = x.toNat := by
  unfold toP
  rw [Int.emod_eq_of_lt h0 (by norm_num at h1 ⊢; omega)]

theorem lor_lt {a b n : Nat} (ha : a < 2 ^ n) (hb : b < 2 ^ n) : a ||| b < 2 ^ n :=
  Nat.bitwise_lt ha hb

/-- `enum Error { OverflowError }`. -/
inductive Error where
  | OverflowError
deriving DecidableEq

/-- `enum TimestampUnit { Seconds, Milliseconds, Microseconds, Nanoseconds }`. -/
inductive TimestampUnit where
  | Seconds
  | Milliseconds
  | Microseconds
  | Nanoseconds
deriving DecidableEq

/-- `TimestampUnit::from_nano`: Rust `/` on `i128` truncates toward zero
(`Int.tdiv`). -/
def TimestampUnit.from_nano (u : TimestampUnit) (nanos : Int) : Int :=
  match u with
  | .Seconds => Int.tdiv nanos 1000000000
  | .Milliseconds => Int.tdiv nanos 1000000
  | .Microseconds => Int.tdiv nanos 1000
  | .Nanoseconds => nanos

/-- `TimestampUnit::to_nano`: Rust `*` on `i128`, wrapping semantics. -/
def TimestampUnit.to_nano (u : TimestampUnit) (value : Int) : Int :=
  match u with
  | .Seconds => i128mul value 1000000000
  | .Milliseconds => i128mul value 1000000
  | .Microseconds => i128mul value 1000
  | .Nanoseconds => value

/-- The `if self.size == 128 { i128::MAX } else { (1 << self.size) - 1 }`
bound formula, repeated verbatim in `RandomSegment::upper_bound`,
`ConstantSegment::upper_bound` and the `offset` of
`TimestampSegment::upper_bound`. -/
def segCap (size : Nat) : Int :=
  if size == 128 then i128MAX else i128sub (i128shl 1 size) 1

/-- `struct TimestampSegment { size: u8, unit: TimestampUnit, since: OffsetDateTime }`.
An `OffsetDateTime` is modelled by its unix timestamp in nanoseconds
(`since.unix_timestamp_nanos()`), which is what every operation of the
source reads from it. -/
structure TimestampSegment where
  size : Nat
  unit : TimestampUnit
  since : Int

/-- `TimestampSegment::encode`: the clock is injected; `now` is the unix
timestamp in nanoseconds that `OffsetDateTime::now_utc()` returns for this
call, so `(now - self.since).whole_nanoseconds()` is `now - since`. -/
def TimestampSegment.encode (s : TimestampSegment) (now : Int) : Except Error Int :=
  .ok (s.unit.from_nano (now - s.since))

/-- `TimestampSegment::decode`: the returned `OffsetDateTime` is modelled by
its unix timestamp in nanoseconds, i.e. the argument the source passes to
`OffsetDateTime::from_unix_timestamp_nanos` (`origin + encoded`, an `i128`
addition). -/
def TimestampSegment.decode (s : TimestampSegment) (encoded : Int) : Int :=
  i128add (s.unit.from_nano s.since) encoded

/-- `TimestampSegment::upper_bound`: `self.since + duration` where
`duration` holds `to_nano(offset)` nanoseconds (the source rebuilds it as
whole seconds plus a nanosecond remainder, which sum back to
`to_nano(offset)`); the result instant is modelled by its unix timestamp
in nanoseconds. -/
def TimestampSegment.upper_bound (s : TimestampSegment) : Int :=
  s.since + s.unit.to_nano (segCap s.size)

/-- The Constant-or-Random half of the segment kinds:
`struct RandomSegment { size: u8 }` and
`struct ConstantSegment<i128> { size: u8, value: i128 }`. -/
inductive CRSegment where
  | constant (size : Nat) (value : Int)
  | random (size : Nat)
deriving DecidableEq

/-- `size()` of both impls. -/
def CRSegment.size : CRSegment → Nat
  | .constant s _ => s
  | .random s => s

/-- `upper_bound()`: both impls carry the identical
`if self.size == 128u8 { i128::MAX } else { (1 << self.size) - 1 }` body. -/
def CRSegment.upper_bound : CRSegment → Int
  | .constant s _ => segCap s
  | .random s => segCap s

/-- `encode()`.  `ConstantSegment::encode` is `Ok(self.value)`.
`RandomSegment::encode` is `Ok(rng.gen_range(0..=self.upper_bound()))`:
the random source is injected, `draw` being the value this call's
`gen_range` returns; `gen_range`'s contract (`drawValid`) constrains it to
`[0, upper_bound]`. -/
def CRSegment.encode : CRSegment → Int → Except Error Int
  | .constant _ v, _ => .ok v
  | .random _, draw => .ok draw

/-- The contract of `rng.gen_range(0..=self.upper_bound())` for the
injected draw of a Random segment; a Constant segment draws nothing. -/
def drawValid : CRSegment → Int → Prop
  | .constant _ _, _ => True
  | .random s, draw => 0 ≤ draw ∧ draw ≤ (CRSegment.random s).upper_bound

/-- `decode(encoded)` of both impls: the identity. -/
def CRSegment.decode (_ : CRSegment) (encoded : Int) : Int := encoded

/-- The value `encode()` returns (it never returns `Err`). -/
def CRSegment.encVal : CRSegment → Int → Int
  | .constant _ v, _ => v
  | .random _, draw => draw

theorem encode_eq_encVal (s : CRSegment) (d : Int) : s.encode d = .ok (s.encVal d) := by
  cases s <;> rfl

/-!
The composers `Spec`, `Spec2`, `Spec3`, `Spec4` hold their segments as a
tuple of boxed trait objects (`segments.0`, `segments.1`, …); here the
segments are passed as explicit arguments `seg0`, `seg1`, … in the same
order, instantiated at the Constant/Random kinds the claims are about.
Each `encode()` call of a Random segment consumes a fresh value from the
thread-local rng; the draws are injected as one argument `d0`, `d1`, …
per segment.  Neither the source structs nor any function of the source
validates the segment widths: the structs have public fields and no
constructor. -/

/-- `Spec::generate`: `self.segment.encode()`. -/
def Spec.generate (segment : CRSegment) (d : Int) : Except Error Int :=
  segment.encode d

/-- `Spec::decompose`: `Ok(self.segment.decode(generated))`. -/
def Spec.decompose (segment : CRSegment) (generated : Int) : Except Error Int :=
  .ok (segment.decode generated)

/-- `Spec2::generate`: `result = segments.1.encode()?`, then
`result |= segments.0.encode()? << segments.1.size()`; the `?` operator
is transcribed as a match that propagates the error. -/
def Spec2.generate (seg0 seg1 : CRSegment) (d0 d1 : Int) : Except Error Int :=
  match seg1.encode d1 with
  | .error e => .error e
  | .ok r1 =>
    match seg0.encode d0 with
    | .error e => .error e
    | .ok r0 => .ok (i128lor r1 (i128shl r0 seg1.size))

/-- `Spec2::decompose`: the most-significant part is extracted as
`((generated as u128) >> self.segments.1.size()) as i128`, a logical
shift of the pattern. -/
def Spec2.decompose (seg0 seg1 : CRSegment) (generated : Int) :
    Except Error (Int × Int) :=
  let second := i128land (i128sub (i128shl 1 seg1.size) 1) generated
  let second := seg1.decode second
  let first := ofP (toP generated >>> seg1.size)
  let first := seg0.decode first
  .ok (first, second)

/-- `Spec3::generate`: accumulates `result` from the least-significant
segment, the running `shift` growing by each segment's size. -/
def Spec3.generate (seg0 seg1 seg2 : CRSegment) (d0 d1 d2 : Int) :
    Except Error Int :=
  match seg2.encode d2 with
  | .error e => .error e
  | .ok r2 =>
    match seg1.encode d1 with
    | .error e => .error e
    | .ok r1 =>
      match seg0.encode d0 with
      | .error e => .error e
      | .ok r0 => .ok (i128lor (i128lor r2 (i128shl r1 seg2.size))
          (i128shl r0 (seg2.size + seg1.size)))

/-- `Spec3::decompose`: the most-significant part is
`generated >> shift`, an arithmetic shift on `i128`. -/
def Spec3.decompose (seg0 seg1 seg2 : CRSegment) (generated : Int) :
    Except Error (Int × Int × Int) :=
  let third := i128land (i128sub (i128shl 1 seg2.size) 1) generated
  let third := seg2.decode third
  let shift := seg2.size
  let second := i128shr
    (i128land (i128sub (i128shl 1 (seg1.size + shift)) 1) generated) shift
  let second := seg1.decode second
  let shift := shift + seg1.size
  let first := i128shr generated shift
  let first := seg0.decode first
  .ok (first, second, third)

/-- `Spec4::generate`: accumulates `result` from the least-significant
segment, the running `shift` growing by each segment's size. -/
def Spec4.generate (seg0 seg1 seg2 seg3 : CRSegment) (d0 d1 d2 d3 : Int) :
    Except Error Int :=
  match seg3.encode d3 with
  | .error e => .error e
  | .ok r3 =>
    match seg2.encode d2 with
    | .error e => .error e
    | .ok r2 =>
      match seg1.encode d1 with
      | .error e => .error e
      | .ok r1 =>
        match seg0.encode d0 with
        | .error e => .error e
        | .ok r0 => .ok (i128lor (i128lor (i128lor r3 (i128shl r2 seg3.size))
            (i128shl r1 (seg3.size + seg2.size)))
          (i128shl r0 (seg3.size + seg2.size + seg1.size)))

/-- `Spec4::decompose`: the most-significant part is
`generated >> shift`, an arithmetic shift on `i128`. -/
def Spec4.decompose (seg0 seg1 seg2 seg3 : CRSegment) (generated : Int) :
    Except Error (Int × Int × Int × Int) :=
  let fourth := i128land (i128sub (i128shl 1 seg3.size) 1) generated
  let fourth := seg3.decode fourth
  let shift := seg3.size
  let third := i128shr
    (i128land (i128sub (i128shl 1 (seg2.size + shift)) 1) generated) shift
  let third := seg2.decode third
  let shift := shift + seg2.size
  let second := i128shr
    (i128land (i128sub (i128shl 1 (seg1.size + shift)) 1) generated) shift
  let second := seg1.decode second
  let shift := shift + seg1.size
  let first := i128shr generated shift
  let first := seg0.decode first
  .ok (first, second, third, fourth)

/-- The pattern of a Rust `|` is the or of the patterns. -/
theorem toP_i128lor (x y : Int) : toP (i128lor x y) = toP x ||| toP y := by
  unfold i128lor
  exact toP_ofP _ (lor_lt (toP_lt x) (toP_lt y))

/-- The pattern of `x << s` for a nonnegative `x` below `2 ^ w` with
`w + s ≤ 128`: no bits are lost, the pattern is `x * 2 ^ s`. -/
theorem toP_i128shl (x : Int) (s w : Nat) (h0 : 0 ≤ x) (h1 : x < 2 ^ w)
    (hws : w + s ≤ 128) :
    toP (i128shl x s) = x.toNat * 2 ^ s ∧ x.toNat * 2 ^ s < 2 ^ (w + s) := by
  have hw128 : w ≤ 128 := le_trans (Nat.le_add_right w s) hws
  have hpow : ((2 : Int) ^ w) ≤ 2 ^ 128 := by
    exact_mod_cast Nat.pow_le_pow_right (by norm_num) hw128
  have hx128 : x < 2 ^ 128 := lt_of_lt_of_le h1 hpow
  have hxn : x.toNat < 2 ^ w := by
    have hc : ((x.toNat : Int)) = x := Int.toNat_of_nonneg h0
    have : (x.toNat : Int) < ((2 ^ w : Nat) : Int) := by
      rw [hc]; exact_mod_cast h1
    exact_mod_cast this
  have hb : x.toNat * 2 ^ s < 2 ^ (w + s) := by
    rw [pow_add]
    exact Nat.mul_lt_mul_of_lt_of_le hxn (le_refl _) (Nat.two_pow_pos s)
  have hb128 : x.toNat * 2 ^ s < 2 ^ 128 :=
    lt_of_lt_of_le hb (Nat.pow_le_pow_right (by norm_num) hws)
  refine ⟨?_, hb⟩
  unfold i128shl
  rw [toP_of_nonneg x h0 hx128, Nat.shiftLeft_eq, Nat.mod_eq_of_lt hb128]
  exact toP_ofP _ hb128

/-- `p - 1` computed through the wrapping `i128` subtraction, for a
pattern `p` at most `2 ^ 127` (the two relevant reinterpretation cases). -/
theorem i128sub_one_ofP (p : Nat) (h1 : 1 ≤ p) (h2 : p ≤ 2 ^ 127) :
    i128sub (ofP p) 1 = (p : Int) - 1 := by
  have hlt : ((ofP p - 1) % (2 ^ 128 : Int)).toNat = p - 1 := by
    unfold ofP
    split <;> (norm_num at h2 ⊢; omega)
  unfold i128sub
  rw [hlt, ofP_of_lt _ (by norm_num at h2 ⊢; omega)]
  push_cast [h1]
  ring

/-- The `if size == 128 { i128::MAX } else { (1 << size) - 1 }` formula
evaluates to `2 ^ size - 1` for every size up to 127. -/
theorem segCap_eq (w : Nat) (h : w ≤ 127) : segCap w = 2 ^ w - 1 := by
  have hlt : (2 : Nat) ^ w < 2 ^ 128 :=
    Nat.pow_lt_pow_right (by norm_num) (by omega)
  have hle : (2 : Nat) ^ w ≤ 2 ^ 127 := Nat.pow_le_pow_right (by norm_num) h
  have hshl : i128shl 1 w = ofP (2 ^ w) := by
    unfold i128shl
    have e1 : toP (1 : Int) = 1 := by decide
    rw [e1, Nat.shiftLeft_eq, one_mul, Nat.mod_eq_of_lt hlt]
  unfold segCap
  rw [if_neg (by simp; omega), hshl,
    i128sub_one_ofP _ Nat.one_le_two_pow hle]
  push_cast
  ring

/-- Modelled from the spec: "*Timestamp*: `epoch + to_duration(raw_value,
unit)`, yielding an absolute instant" — `to_duration` converts a raw value
of the configured granularity to a duration, here in nanoseconds, with
exact (non-wrapping) arithmetic as the spec's formula is mathematical. -/
def toDurationNanos : TimestampUnit → Int → Int
  | .Seconds, v => v * 1000000000
  | .Milliseconds, v => v * 1000000
  | .Microseconds, v => v * 1000
  | .Nanoseconds, v => v

/-- Modelled from the spec: the absolute instant the spec says
`TimestampSegment::decode` returns, as a unix timestamp in nanoseconds. -/
def tsDecodeSpec (s : TimestampSegment) (raw : Int) : Int :=
  s.since + toDurationNanos s.unit raw

/-- C1: the round-trip claim fails on the code.  The composition
Constant(8, 255), Constant(16, 0), Constant(32, 0), Constant(72, 0) has
widths summing to exactly 128 and every value within its segment's upper
bound, yet `generate()` packs it into `-(2^120)` (the top bit is set) and
`Spec4::decompose`, which recovers the most-significant segment with an
arithmetic right shift, returns `(-1, 0, 0, 0)` instead of
`(255, 0, 0, 0)`. -/
theorem c1_roundtrip_fails_at_full_width :
    Spec4.generate (.constant 8 255) (.constant 16 0) (.constant 32 0)
      (.constant 72 0) 0 0 0 0 = .ok (-(2 ^ 120)) ∧
    Spec4.decompose (.constant 8 255) (.constant 16 0) (.constant 32 0)
      (.constant 72 0) (-(2 ^ 120)) = .ok (-1, 0, 0, 0) ∧
    (255 : Int) ≤ (CRSegment.constant 8 255).upper_bound ∧
    ((-1 : Int), (0 : Int), (0 : Int), (0 : Int)) ≠
      ((255 : Int), (0 : Int), (0 : Int), (0 : Int)) := by
  refine ⟨rfl, rfl, by decide, by decide⟩

/-- C2: the code performs no validation of a Constant value, neither in
`ConstantSegment::new` (which only stores its arguments) nor in `encode`
(which is `Ok(self.value)` unconditionally): `generate()` on a
composition holding Constant(width 1, value 5) returns `Ok(5)` although
5 exceeds the segment's upper bound 1 — no `OverflowError` is ever
produced. -/
theorem c2_constant_overflow_unchecked :
    (∀ (w : Nat) (v d : Int), (CRSegment.constant w v).encode d = .ok v) ∧
    Spec.generate (.constant 1 5) 0 = .ok 5 ∧
    (CRSegment.constant 1 5).upper_bound = 1 ∧
    ¬ (5 : Int) ≤ (CRSegment.constant 1 5).upper_bound := by
  refine ⟨fun w v d => rfl, rfl, by decide, by decide⟩

/-- C3: `TimestampSegment::decode` converts the epoch to the configured
granularity (`origin = from_nano(since)`) and then feeds `origin + raw`
to `from_unix_timestamp_nanos`, i.e. it re-reads a granularity-unit sum
as nanoseconds.  For a Seconds segment with epoch at the unix epoch and
raw value 1, the code returns the instant 1 nanosecond after the epoch,
while the spec's `epoch + to_duration(raw, unit)` is 1 second
(1000000000 ns) after it. -/
theorem c3_timestamp_decode_wrong_unit :
    TimestampSegment.decode ⟨64, .Seconds, 0⟩ 1 = 1 ∧
    tsDecodeSpec ⟨64, .Seconds, 0⟩ 1 = 1000000000 ∧
    TimestampSegment.decode ⟨64, .Seconds, 0⟩ 1 ≠
      tsDecodeSpec ⟨64, .Seconds, 0⟩ 1 := by
  refine ⟨by decide, by decide, by decide⟩

/-- C5: `TimestampSegment::encode` returns
`Ok(from_nano(now - since))` unconditionally — the overflow check the
claim requires is not enforced.  Concretely, a Seconds segment of width
1 (raw values may not exceed 1, i.e. instants up to 1 second after the
epoch) still returns `Ok(10)` when the clock reads 10 seconds after the
epoch. -/
theorem c5_timestamp_encode_never_errors :
    (∀ (s : TimestampSegment) (now : Int),
      s.encode now = .ok (s.unit.from_nano (now - s.since))) ∧
    TimestampSegment.encode ⟨1, .Seconds, 0⟩ 10000000000 = .ok 10 ∧
    segCap 1 = 1 ∧ ¬ (10 : Int) ≤ segCap 1 ∧
    TimestampSegment.upper_bound ⟨1, .Seconds, 0⟩ = 1000000000 := by
  refine ⟨fun s now => rfl, rfl, by decide, by decide, by decide⟩

/-- C7 counterexample: a composition whose widths sum to 200 > 128 is
constructed (the composer structs have public fields and no validating
constructor) and `generate()` on it succeeds. -/
theorem c7_overwide_construction_accepted :
    Spec2.generate (.constant 100 0) (.constant 100 0) 0 0 = .ok 0 ∧
    128 < (CRSegment.constant 100 0).size + (CRSegment.constant 100 0).size := by
  refine ⟨rfl, by decide⟩

/-- C7 amended: construction performs no width validation at all — the
composers accept segments of any widths, and `generate` never rejects an
over-wide layout (on Constant segments it always succeeds). -/
theorem c7_no_construction_validation :
    ∀ (w0 w1 w2 w3 : Nat) (v0 v1 v2 v3 d0 d1 d2 d3 : Int),
      (∃ r, Spec2.generate (.constant w0 v0) (.constant w1 v1) d0 d1 = .ok r) ∧
      (∃ r, Spec4.generate (.constant w0 v0) (.constant w1 v1)
        (.constant w2 v2) (.constant w3 v3) d0 d1 d2 d3 = .ok r) := by
  intro w0 w1 w2 w3 v0 v1 v2 v3 d0 d1 d2 d3
  exact ⟨⟨_, rfl⟩, ⟨_, rfl⟩⟩

/-- C4 counterexample: at the container's full bit size the code caps the
upper bound at `i128::MAX = 2^127 - 1`, the signed maximum, not the full
unsigned maximum `2^128 - 1` the claim requires. -/
theorem c4_full_width_bound_is_signed_max :
    (CRSegment.random 128).upper_bound ≠ 2 ^ 128 - 1 ∧
    (CRSegment.constant 128 0).upper_bound ≠ 2 ^ 128 - 1 := by
  refine ⟨by decide, by decide⟩

/-- C4 amended: for widths 1..=127, `upper_bound()` of a Random or
Constant segment returns `2^width - 1`; at width 128 it returns
`i128::MAX = 2^127 - 1`, the signed maximum of the `i128` container. -/
theorem c4_upper_bound_amended :
    (∀ (w : Nat) (v : Int), 1 ≤ w → w ≤ 127 →
      (CRSegment.constant w v).upper_bound = 2 ^ w - 1 ∧
      (CRSegment.random w).upper_bound = 2 ^ w - 1) ∧
    (∀ v : Int, (CRSegment.constant 128 v).upper_bound = 2 ^ 127 - 1 ∧
      (CRSegment.random 128).upper_bound = 2 ^ 127 - 1) := by
  constructor
  · intro w v _ h2
    exact ⟨segCap_eq w h2, segCap_eq w h2⟩
  · intro v
    have h : segCap 128 = 2 ^ 127 - 1 := by decide
    exact ⟨h, h⟩

/-- Witness for the amended C4 at width 5. -/
theorem c4_upper_bound_amended_witness :
    (CRSegment.constant 5 0).upper_bound = 2 ^ 5 - 1 ∧
    (CRSegment.random 5).upper_bound = 2 ^ 5 - 1 :=
  c4_upper_bound_amended.1 5 0 (by norm_num) (by norm_num)

/-- C8: `RandomSegment::encode` is `Ok(rng.gen_range(0..=upper_bound))`:
it never returns an error, and by `gen_range`'s contract the drawn value
lies in `[0, upper_bound]`.  For a single Random segment of width 64,
`generate()` therefore returns a value in `[0, 2^64 - 1]`. -/
theorem c8_random_encode_in_range :
    (∀ (w : Nat) (d : Int), drawValid (.random w) d →
      (CRSegment.random w).encode d = .ok d ∧
      0 ≤ d ∧ d ≤ (CRSegment.random w).upper_bound) ∧
    (∀ d : Int, drawValid (.random 64) d →
      Spec.generate (.random 64) d = .ok d ∧ 0 ≤ d ∧ d ≤ 2 ^ 64 - 1) := by
  constructor
  · intro w d h
    exact ⟨rfl, h.1, h.2⟩
  · intro d h
    refine ⟨rfl, h.1, ?_⟩
    have hub : (CRSegment.random 64).upper_bound = 2 ^ 64 - 1 := by decide
    have := h.2
    rw [hub] at this
    exact this

/-- Witness for C8 at draw 0. -/
theorem c8_random_encode_in_range_witness :
    Spec.generate (.random 64) 0 = .ok 0 ∧ (0 : Int) ≤ 0 ∧
      (0 : Int) ≤ 2 ^ 64 - 1 :=
  c8_random_encode_in_range.2 0 ⟨le_refl 0, by decide⟩

/-- Arithmetic right shift of a negative value stays negative. -/
theorem i128shr_neg (g : Int) (s : Nat) (h : g < 0) : i128shr g s < 0 :=
  Int.ediv_neg' h (by positivity)

/-- C9: over Constant/Random segments, `decompose` wraps its result in
`Ok` unconditionally — it validates nothing about the supplied integer,
for any `i128` input and any composition with per-segment widths of at
least 1 summing to at most 128. -/
theorem c9_decompose_never_errors :
    (∀ (s : CRSegment) (g : Int), ∃ v, Spec.decompose s g = .ok v) ∧
    (∀ (s0 s1 : CRSegment) (g : Int), 1 ≤ s0.size → 1 ≤ s1.size →
      s0.size + s1.size ≤ 128 → ∃ v, Spec2.decompose s0 s1 g = .ok v) ∧
    (∀ (s0 s1 s2 : CRSegment) (g : Int), 1 ≤ s0.size → 1 ≤ s1.size →
      1 ≤ s2.size → s0.size + s1.size + s2.size ≤ 128 →
      ∃ v, Spec3.decompose s0 s1 s2 g = .ok v) ∧
    (∀ (s0 s1 s2 s3 : CRSegment) (g : Int), 1 ≤ s0.size → 1 ≤ s1.size →
      1 ≤ s2.size → 1 ≤ s3.size →
      s0.size + s1.size + s2.size + s3.size ≤ 128 →
      ∃ v, Spec4.decompose s0 s1 s2 s3 g = .ok v) := by
  refine ⟨fun s g => ⟨_, rfl⟩, fun s0 s1 g _ _ _ => ⟨_, rfl⟩,
    fun s0 s1 s2 g _ _ _ _ => ⟨_, rfl⟩,
    fun s0 s1 s2 s3 g _ _ _ _ _ => ⟨_, rfl⟩⟩

/-- Witness for C9 on a four-segment composition and the input 7. -/
theorem c9_decompose_never_errors_witness :
    ∃ v, Spec4.decompose (.constant 32 0) (.random 32) (.constant 32 0)
      (.random 32) 7 = .ok v :=
  c9_decompose_never_errors.2.2.2 (.constant 32 0) (.random 32)
    (.constant 32 0) (.random 32) 7 (by decide) (by decide)
    (by decide) (by decide) (by decide)

/-- C10: `Spec2::decompose` extracts the most-significant segment as
`((generated as u128) >> size) as i128`, a logical shift, so over
Constant/Random segments its first component is nonnegative for every
input; `Spec3::decompose` and `Spec4::decompose` use the arithmetic
shift `generated >> shift`, so for every negative input their first
component is negative. -/
theorem c10_msb_extraction_sign :
    (∀ (s0 s1 : CRSegment) (g x y : Int), 1 ≤ s1.size → s1.size ≤ 127 →
      Spec2.decompose s0 s1 g = .ok (x, y) → 0 ≤ x) ∧
    (∀ (s0 s1 s2 : CRSegment) (g x y z : Int), g < 0 →
      1 ≤ s0.size → 1 ≤ s1.size → 1 ≤ s2.size →
      s0.size + s1.size + s2.size ≤ 128 →
      Spec3.decompose s0 s1 s2 g = .ok (x, y, z) → x < 0) ∧
    (∀ (s0 s1 s2 s3 : CRSegment) (g x y z u : Int), g < 0 →
      1 ≤ s0.size → 1 ≤ s1.size → 1 ≤ s2.size → 1 ≤ s3.size →
      s0.size + s1.size + s2.size + s3.size ≤ 128 →
      Spec4.decompose s0 s1 s2 s3 g = .ok (x, y, z, u) → x < 0) := by
  refine ⟨?_, ?_, ?_⟩
  · intro s0 s1 g x y h1 h127 heq
    simp only [Spec2.decompose, CRSegment.decode, Except.ok.injEq,
      Prod.mk.injEq] at heq
    obtain ⟨hx, -⟩ := heq
    subst hx
    apply ofP_nonneg_of_lt
    rw [Nat.shiftRight_eq_div_pow]
    apply Nat.div_lt_of_lt_mul
    calc toP g < 2 ^ 128 := toP_lt g
      _ ≤ 2 ^ s1.size * 2 ^ 127 := by
        rw [← pow_add]
        exact Nat.pow_le_pow_right (by norm_num) (by omega)
  · intro s0 s1 s2 g x y z hg h0 h1 h2 hsum heq
    simp only [Spec3.decompose, CRSegment.decode, Except.ok.injEq,
      Prod.mk.injEq] at heq
    obtain ⟨hx, -⟩ := heq
    subst hx
    exact i128shr_neg g _ hg
  · intro s0 s1 s2 s3 g x y z u hg h0 h1 h2 h3 hsum heq
    simp only [Spec4.decompose, CRSegment.decode, Except.ok.injEq,
      Prod.mk.injEq] at heq
    obtain ⟨hx, -⟩ := heq
    subst hx
    exact i128shr_neg g _ hg

/-- Witness for C10: the logical-shift part on input `-1` with two
width-1 segments, and the arithmetic-shift parts on input `-1` with
width-1 segments. -/
theorem c10_msb_extraction_sign_witness :
    (0 : Int) ≤ 2 ^ 127 - 1 ∧ (-1 : Int) < 0 ∧ (-1 : Int) < 0 :=
  ⟨c10_msb_extraction_sign.1 (.constant 1 0) (.constant 1 0) (-1)
      (2 ^ 127 - 1) 1 (by decide) (by decide) rfl,
    c10_msb_extraction_sign.2.1 (.constant 1 0) (.constant 1 0)
      (.constant 1 0) (-1) (-1) 1 1 (by decide) (by decide)
      (by decide) (by decide) (by decide) rfl,
    c10_msb_extraction_sign.2.2 (.constant 1 0) (.constant 1 0)
      (.constant 1 0) (.constant 1 0) (-1) (-1) 1 1 1 (by decide)
      (by decide) (by decide) (by decide) (by decide)
      (by decide) rfl⟩

/-- A nonnegative value below `2 ^ w` has a `toNat` below `2 ^ w`. -/
theorem toNat_lt_pow (x : Int) (w : Nat) (h0 : 0 ≤ x) (h1 : x < 2 ^ w) :
    x.toNat < 2 ^ w := by
  have hc : ((x.toNat : Int)) = x := Int.toNat_of_nonneg h0
  have : (x.toNat : Int) < ((2 ^ w : Nat) : Int) := by
    rw [hc]; push_cast; exact h1
  exact_mod_cast this

/-- The pattern of a nonnegative value below `2 ^ w`, `w ≤ 128`, is its
`toNat`. -/
theorem toP_of_small (x : Int) (w : Nat) (hw : w ≤ 128) (h0 : 0 ≤ x)
    (h1 : x < 2 ^ w) : toP x = x.toNat := by
  apply toP_of_nonneg x h0
  calc x < 2 ^ w := h1
    _ ≤ 2 ^ 128 := by
      exact_mod_cast Nat.pow_le_pow_right (by norm_num) hw

/-- C6 counterexample: no range check exists before the OR.  A width-1
Constant segment holding the value 5 passes it through `encode`
unchecked, and `generate()` on widths (1, 1) returns 5, whose pattern
needs 3 bits — more than the declared 2. -/
theorem c6_width_conservation_counterexample :
    Spec2.generate (.constant 1 0) (.constant 1 5) 0 0 = .ok 5 ∧
    ¬ toP 5 < 2 ^ ((CRSegment.constant 1 0).size +
      (CRSegment.constant 1 5).size) := by
  refine ⟨rfl, by decide⟩

/-- C6 amended: `generate` performs no per-segment range check; but
whenever every segment's encoded raw value does lie in `[0, 2^width)`,
the returned identifier's 128-bit pattern occupies no more bits than
the sum of the declared segment widths.  (For width sums of exactly 128
the *pattern* is so bounded while the `i128` reading may be negative.) -/
theorem c6_width_conservation_amended :
    (∀ (seg : CRSegment) (d g : Int), seg.size ≤ 128 →
      0 ≤ seg.encVal d → seg.encVal d < 2 ^ seg.size →
      Spec.generate seg d = .ok g → toP g < 2 ^ seg.size) ∧
    (∀ (s0 s1 : CRSegment) (d0 d1 g : Int),
      0 ≤ s0.encVal d0 → s0.encVal d0 < 2 ^ s0.size →
      0 ≤ s1.encVal d1 → s1.encVal d1 < 2 ^ s1.size →
      s0.size + s1.size ≤ 128 →
      Spec2.generate s0 s1 d0 d1 = .ok g →
      toP g < 2 ^ (s0.size + s1.size)) ∧
    (∀ (s0 s1 s2 : CRSegment) (d0 d1 d2 g : Int),
      0 ≤ s0.encVal d0 → s0.encVal d0 < 2 ^ s0.size →
      0 ≤ s1.encVal d1 → s1.encVal d1 < 2 ^ s1.size →
      0 ≤ s2.encVal d2 → s2.encVal d2 < 2 ^ s2.size →
      s0.size + s1.size + s2.size ≤ 128 →
      Spec3.generate s0 s1 s2 d0 d1 d2 = .ok g →
      toP g < 2 ^ (s0.size + s1.size + s2.size)) ∧
    (∀ (s0 s1 s2 s3 : CRSegment) (d0 d1 d2 d3 g : Int),
      0 ≤ s0.encVal d0 → s0.encVal d0 < 2 ^ s0.size →
      0 ≤ s1.encVal d1 → s1.encVal d1 < 2 ^ s1.size →
      0 ≤ s2.encVal d2 → s2.encVal d2 < 2 ^ s2.size →
      0 ≤ s3.encVal d3 → s3.encVal d3 < 2 ^ s3.size →
      s0.size + s1.size + s2.size + s3.size ≤ 128 →
      Spec4.generate s0 s1 s2 s3 d0 d1 d2 d3 = .ok g →
      toP g < 2 ^ (s0.size + s1.size + s2.size + s3.size)) := by
  refine ⟨?_, ?_, ?_, ?_⟩
  · intro seg d g hsz h0 h1 hg
    simp only [Spec.generate, encode_eq_encVal, Except.ok.injEq] at hg
    subst hg
    rw [toP_of_small _ _ hsz h0 h1]
    exact toNat_lt_pow _ _ h0 h1
  · intro s0 s1 d0 d1 g h00 h01 h10 h11 hsum hg
    simp only [Spec2.generate, encode_eq_encVal, Except.ok.injEq] at hg
    subst hg
    rw [toP_i128lor]
    obtain ⟨hsl, hslb⟩ := toP_i128shl (s0.encVal d0) s1.size s0.size h00 h01 hsum
    rw [hsl]
    apply lor_lt
    · rw [toP_of_small _ s1.size (by omega) h10 h11]
      exact lt_of_lt_of_le (toNat_lt_pow _ _ h10 h11)
        (Nat.pow_le_pow_right (by norm_num) (by omega))
    · exact lt_of_lt_of_le hslb (Nat.pow_le_pow_right (by norm_num) (by omega))
  · intro s0 s1 s2 d0 d1 d2 g h00 h01 h10 h11 h20 h21 hsum hg
    simp only [Spec3.generate, encode_eq_encVal, Except.ok.injEq] at hg
    subst hg
    rw [toP_i128lor, toP_i128lor]
    obtain ⟨hsl1, hslb1⟩ := toP_i128shl (s1.encVal d1) s2.size s1.size h10 h11
      (by omega)
    obtain ⟨hsl0, hslb0⟩ := toP_i128shl (s0.encVal d0) (s2.size + s1.size)
      s0.size h00 h01 (by omega)
    rw [hsl1, hsl0]
    apply lor_lt
    · apply lor_lt
      · rw [toP_of_small _ s2.size (by omega) h20 h21]
        exact lt_of_lt_of_le (toNat_lt_pow _ _ h20 h21)
          (Nat.pow_le_pow_right (by norm_num) (by omega))
      · exact lt_of_lt_of_le hslb1 (Nat.pow_le_pow_right (by norm_num) (by omega))
    · exact lt_of_lt_of_le hslb0 (Nat.pow_le_pow_right (by norm_num) (by omega))
  · intro s0 s1 s2 s3 d0 d1 d2 d3 g h00 h01 h10 h11 h20 h21 h30 h31 hsum hg
    simp only [Spec4.generate, encode_eq_encVal, Except.ok.injEq] at hg
    subst hg
    rw [toP_i128lor, toP_i128lor, toP_i128lor]
    obtain ⟨hsl2, hslb2⟩ := toP_i128shl (s2.encVal d2) s3.size s2.size h20 h21
      (by omega)
    obtain ⟨hsl1, hslb1⟩ := toP_i128shl (s1.encVal d1) (s3.size + s2.size)
      s1.size h10 h11 (by omega)
    obtain ⟨hsl0, hslb0⟩ := toP_i128shl (s0.encVal d0)
      (s3.size + s2.size + s1.size) s0.size h00 h01 (by omega)
    rw [hsl2, hsl1, hsl0]
    apply lor_lt
    · apply lor_lt
      · apply lor_lt
        · rw [toP_of_small _ s3.size (by omega) h30 h31]
          exact lt_of_lt_of_le (toNat_lt_pow _ _ h30 h31)
            (Nat.pow_le_pow_right (by norm_num) (by omega))
        · exact lt_of_lt_of_le hslb2
            (Nat.pow_le_pow_right (by norm_num) (by omega))
      · exact lt_of_lt_of_le hslb1
          (Nat.pow_le_pow_right (by norm_num) (by omega))
    · exact lt_of_lt_of_le hslb0
        (Nat.pow_le_pow_right (by norm_num) (by omega))

/-- Witness for the amended C6 on the four-segment composition of the
repository's own `spec4` test: widths (8, 16, 32, 72), values
(11, 222, 3333, 44444). -/
theorem c6_width_conservation_amended_witness :
    toP (11 * 2 ^ 120 + 222 * 2 ^ 104 + 3333 * 2 ^ 72 + 44444) <
      2 ^ ((CRSegment.constant 8 11).size + (CRSegment.constant 16 222).size +
        (CRSegment.constant 32 3333).size + (CRSegment.constant 72 44444).size) :=
  c6_width_conservation_amended.2.2.2 (.constant 8 11) (.constant 16 222)
    (.constant 32 3333) (.constant 72 44444) 0 0 0 0
    (11 * 2 ^ 120 + 222 * 2 ^ 104 + 3333 * 2 ^ 72 + 44444)
    (by decide) (by decide) (by decide) (by decide) (by decide) (by decide)
    (by decide) (by decide) (by decide) rfl

end Utid
